import Mathlib

/-!
Verification of the trading-signal engine in `src/strategy/strategy2.py`
(class `TradingStrategy`).

Modelling conventions:
* Python/numpy floats are modelled as exact rationals (`ℚ`).  Where the code
  can produce IEEE-754 special values (the divisions `sl / atr_value` and
  `tp / atr_value` in `_calculate_sl_tp` operate on `np.float64` and yield
  `inf`/`nan` instead of raising when `atr_value == 0`), values are lifted to
  `XFloat`, an extended domain with `+inf`, `-inf` and `nan` following the
  IEEE-754 rules that numpy implements.  Finite arithmetic is exact; rounding
  is not modelled.
* A Python function that can raise is embedded with an `Except`/`Option`
  result; the error value names the exception the source raises.
* The decision messages (f-strings in the source) are embedded as an
  inductive `Message` type: the constructor records which branch produced the
  message and the price it interpolates, which is exactly the information the
  distinct f-string templates carry.
-/

set_option autoImplicit false

namespace TradingStrategy

/-- Extended value domain for `np.float64` results: a finite rational, `+inf`,
`-inf`, or `nan`.  numpy division of a finite float by `0.0` emits a warning
and returns `inf`/`-inf`/`nan` (it does not raise, unlike Python `float`). -/
inductive XFloat where
  | fin (q : ℚ)
  | pinf
  | ninf
  | nan
deriving DecidableEq, Repr

/-- IEEE negation. -/
def XFloat.neg : XFloat → XFloat
  | .fin q => .fin (-q)
  | .pinf => .ninf
  | .ninf => .pinf
  | .nan => .nan

/-- IEEE addition (exact on finite values). -/
def XFloat.add : XFloat → XFloat → XFloat
  | .nan, _ => .nan
  | _, .nan => .nan
  | .fin p, .fin q => .fin (p + q)
  | .fin _, .pinf => .pinf
  | .fin _, .ninf => .ninf
  | .pinf, .fin _ => .pinf
  | .ninf, .fin _ => .ninf
  | .pinf, .pinf => .pinf
  | .ninf, .ninf => .ninf
  | .pinf, .ninf => .nan
  | .ninf, .pinf => .nan

/-- IEEE subtraction. -/
def XFloat.sub (a b : XFloat) : XFloat := a.add b.neg

/-- IEEE multiplication (exact on finite values); `0 * inf = nan`. -/
def XFloat.mul : XFloat → XFloat → XFloat
  | .nan, _ => .nan
  | _, .nan => .nan
  | .fin p, .fin q => .fin (p * q)
  | .fin p, .pinf => if 0 < p then .pinf else if p < 0 then .ninf else .nan
  | .fin p, .ninf => if 0 < p then .ninf else if p < 0 then .pinf else .nan
  | .pinf, .fin q => if 0 < q then .pinf else if q < 0 then .ninf else .nan
  | .ninf, .fin q => if 0 < q then .ninf else if q < 0 then .pinf else .nan
  | .pinf, .pinf => .pinf
  | .ninf, .ninf => .pinf
  | .pinf, .ninf => .ninf
  | .ninf, .pinf => .ninf

/-- IEEE division: a nonzero finite value divided by zero gives a signed
infinity, `0/0` gives `nan` (numpy emits a `RuntimeWarning` in both cases but
returns normally). -/
def XFloat.div : XFloat → XFloat → XFloat
  | .nan, _ => .nan
  | _, .nan => .nan
  | .fin p, .fin q =>
      if q = 0 then (if 0 < p then .pinf else if p < 0 then .ninf else .nan)
      else .fin (p / q)
  | .fin _, .pinf => .fin 0
  | .fin _, .ninf => .fin 0
  | .pinf, .fin q => if 0 ≤ q then .pinf else .ninf
  | .ninf, .fin q => if 0 ≤ q then .ninf else .pinf
  | .pinf, .pinf => .nan
  | .pinf, .ninf => .nan
  | .ninf, .pinf => .nan
  | .ninf, .ninf => .nan

/-- IEEE `<=` as a boolean: any comparison involving `nan` is false. -/
def XFloat.le : XFloat → XFloat → Bool
  | .nan, _ => false
  | _, .nan => false
  | .ninf, _ => true
  | _, .pinf => true
  | .pinf, .fin _ => false
  | .pinf, .ninf => false
  | .fin _, .ninf => false
  | .fin p, .fin q => decide (p ≤ q)

/-- `np.mean` of a list of rationals (sum divided by length; the empty-list
case, where numpy returns `nan`, is never reached with the guards the
callers use). -/
def npMean (xs : List ℚ) : ℚ := xs.sum / xs.length

/-- Python slice `prices[-period:]`: the last `period` elements — except that
`prices[-0:]` is the whole list. -/
def lastSlice (prices : List ℚ) (period : ℕ) : List ℚ :=
  if period = 0 then prices else prices.drop (prices.length - period)

/-- `TradingStrategy.calculate_sma` (strategy2.py lines 31–35):
`np.mean(prices[-period:])` when `len(prices) >= period`, else `None`. -/
def calculate_sma (prices : List ℚ) (period : ℕ) : Option ℚ :=
  if prices.length ≥ period then some (npMean (lastSlice prices period)) else none

/-- `TradingStrategy.calculate_ema` (lines 37–45): seed `prices[0]`,
smoothing factor `k = 2/(period+1)`, recurrence
`ema = price*k + ema*(1-k)` over the remaining prices; `None` when
`len(prices) < period`.  (The `[]` branch is reachable only for
`period = 0`, where the source raises `IndexError` on `prices[0]`;
every call site uses a positive period.) -/
def calculate_ema (prices : List ℚ) (period : ℕ) : Option ℚ :=
  if prices.length < period then none
  else
    match prices with
    | [] => none
    | p0 :: rest =>
      let k : ℚ := 2 / (period + 1)
      some (rest.foldl (fun e price => price * k + e * (1 - k)) p0)

/-- Consecutive deltas `prices[i] - prices[i-1]`, `i = 1 .. len-1`. -/
def deltas (prices : List ℚ) : List ℚ :=
  (prices.zip prices.tail).map (fun pq => pq.2 - pq.1)

/-- The `gains` list of `calculate_rsi`: the positive deltas. -/
def gainsOf (prices : List ℚ) : List ℚ :=
  (deltas prices).filter (fun d => decide (0 < d))

/-- The `losses` list of `calculate_rsi`: `-delta` for every non-positive
delta (a zero delta contributes a zero loss, as in the source). -/
def lossesOf (prices : List ℚ) : List ℚ :=
  ((deltas prices).filter (fun d => !(decide (0 < d)))).map (fun d => -d)

/-- `TradingStrategy.calculate_rsi` (lines 47–69): split the deltas of the
whole series into gains (`delta > 0`) and losses (`-delta` for `delta <= 0`),
average each side (`0` for an empty side), return `100` when the average loss
is `0`, else `100 - 100/(1 + avg_gain/avg_loss)`; `None` when
`len(prices) < period`. -/
def calculate_rsi (prices : List ℚ) (period : ℕ) : Option ℚ :=
  if prices.length < period then none
  else
    let gains := gainsOf prices
    let losses := lossesOf prices
    let average_gain := if gains.isEmpty then 0 else npMean gains
    let average_loss := if losses.isEmpty then 0 else npMean losses
    if average_loss = 0 then some 100
    else some (100 - 100 / (1 + average_gain / average_loss))

/-- The true-range array `tr` of `calculate_atr`: `tr[0] = 0` (from
`np.zeros_like`), `tr[i] = |prices[i] - prices[i-1]|` (the three candidate
components of the `max` are identical in the source). -/
def trList (prices : List ℚ) : List ℚ :=
  match prices with
  | [] => []
  | _ :: _ => 0 :: (deltas prices).map (fun d => |d|)

/-- The Wilder-smoothing loop of `calculate_atr`:
`atr[i] = (atr[i-1]*(period-1) + tr[i]) / period` folded over the true
ranges after the seed window. -/
def wilder (period : ℕ) (seed : ℚ) (trs : List ℚ) : ℚ :=
  trs.foldl (fun a t => (a * ((period : ℚ) - 1) + t) / (period : ℚ)) seed

/-- `TradingStrategy.calculate_atr` (lines 71–87).  The assignment
`atr[period - 1] = np.mean(tr[:period])` raises `IndexError` whenever
`period - 1` is not a valid index, i.e. whenever `len(prices) < period`
(including the empty series); this is modelled as `Except.error`.  Otherwise
the result is the last element of the smoothed array: the seed
`np.mean(tr[:period])` Wilder-smoothed over `tr[period:]`.  (For `period = 0`
Python would wrap the index negatively; every call site uses `period = 14`.) -/
def calculate_atr (prices : List ℚ) (period : ℕ) : Except String ℚ :=
  let tr := trList prices
  if period - 1 < prices.length then
    Except.ok (wilder period (npMean (tr.take period)) (tr.drop period))
  else
    Except.error "IndexError"

/-- A decision message appended to the cycle output, one constructor per
distinct f-string template of `_get_predicate`:
`sellSL t p` is `"📉 SELL {t} SL: {p}"`, `sellTP t p` is
`"📉 SELL {t} TP: {p}"`, `buy t` / `sell t` are `"📈 BUY {t}"` /
`"📉 SELL {t}"` from the trend branch, and `hold t` is
`"⏳ HOLD {t} - No clear action"`. -/
inductive Message where
  | sellSL (ticker : String) (stop_price : XFloat)
  | sellTP (ticker : String) (take_price : XFloat)
  | buy (ticker : String)
  | sell (ticker : String)
  | hold (ticker : String)
deriving DecidableEq, Repr

/-- An instrument record from the instrument directory (`db.instruments`). -/
structure Instrument where
  ticker : String
  uid : String
  instrument_type : String
deriving DecidableEq, Repr

/-- The engine configuration held by the `TradingStrategy` object: the
absolute stop-loss / take-profit values `sl` and `tp`, the reverse-mode
flag, the indicator lookback period, and the per-cycle forecast map. -/
structure Config where
  sl : ℚ
  tp : ℚ
  is_reverse : Bool := false
  period : ℕ := 20
  forecast : List (String × ℚ) := []
deriving Repr

/-- A holding entry of the securities document (`instrument_uid`, `balance`).
`TradingStrategy._get_security_balance` treats a missing document and an
empty `securities` list identically, so the document is modelled as the
list itself. -/
structure Holding where
  instrument_uid : String
  balance : ℚ
deriving DecidableEq, Repr

/-- An order record from `db.orders`. -/
structure DbOrder where
  order_type : String
  instrument_uid : String
  price : ℚ
deriving DecidableEq, Repr

/-- One persisted market snapshot: its `marketData` mapping ticker → price. -/
abbrev Snapshot := List (String × ℚ)

/-- The external stores `make_predicate` reads: the current market snapshot,
the historical snapshots in the order the store returns them (already
sorted most-recent-first and limited to `frame` by the query in
`_get_trends`), the instrument directory, the order store and the holdings
document. -/
structure Db where
  market_data : List (String × ℚ)
  history : List Snapshot
  instruments : List Instrument
  orders : List DbOrder
  securities : List Holding
deriving Repr

/-- `TradingStrategy._get_security_balance` (lines 104–112): first holding
matching the instrument uid, `0` when absent. -/
def _get_security_balance (securities : List Holding) (instrument : Instrument) : ℚ :=
  match securities.find? (fun s => s.instrument_uid == instrument.uid) with
  | some s => s.balance
  | none => 0

/-- `TradingStrategy._calculate_sl_tp` (lines 114–119): the absolute SL/TP
values are halved unless the instrument type is `share`, then divided by the
ATR value.  The operands are `np.float64`, so division by a zero ATR yields
an infinity or `nan` rather than raising — hence the `XFloat` result. -/
def _calculate_sl_tp (cfg : Config) (instrument : Instrument) (atr_value : ℚ) :
    XFloat × XFloat :=
  let sl := if instrument.instrument_type == "share" then cfg.sl else cfg.sl / 2
  let tp := if instrument.instrument_type == "share" then cfg.tp else cfg.tp / 2
  (XFloat.div (.fin sl) (.fin atr_value), XFloat.div (.fin tp) (.fin atr_value))

/-- The trend branch of `_get_predicate` (lines 150–163): when both SMA and
EMA are present, emit BUY / SELL (swapped under `is_reverse`) when the
up-trend / down-trend rule fires, else HOLD; when SMA or EMA is absent,
append nothing. -/
def trendDecision (cfg : Config) (messages : List Message) (ticker : String)
    (current_price : ℚ) (sma ema rsi : Option ℚ) (forecast_prob : ℚ) : List Message :=
  match sma, ema with
  | some s, some e =>
    if (decide (current_price > e) && decide (current_price > s)
          && decide (forecast_prob ≥ 0.4))
        && (match rsi with | some r => decide (r < 35) | none => false) then
      messages ++ [if cfg.is_reverse then .sell ticker else .buy ticker]
    else if (decide (current_price < e) && decide (current_price < s)
          && decide (forecast_prob ≥ 0.6))
        && (match rsi with | some r => decide (r > 70) | none => false) then
      messages ++ [if cfg.is_reverse then .buy ticker else .sell ticker]
    else
      messages ++ [.hold ticker]
  | _, _ => messages

/-- Lines 128–131 of `_get_predicate`: `calculate_atr(prices, period=14)`
with the `except IndexError: atr_value = 1` fallback. -/
def atrValueOf (prices : List ℚ) : ℚ :=
  match calculate_atr prices 14 with
  | .ok v => v
  | .error _ => 1

/-- `TradingStrategy._get_predicate` (lines 121–164): compute the ATR
(substituting `1` when `calculate_atr` raises `IndexError`), the SL/TP
multipliers and levels, the forecast probability (default `0`), the
indicators, and the holding balance; then branch in priority order:
stop-loss exit, take-profit exit, trend decision. -/
def _get_predicate (cfg : Config) (messages : List Message) (instrument : Instrument)
    (current_price price_change : ℚ) (trends : List (String × List ℚ))
    (securities : List Holding) : List Message :=
  let ticker := instrument.ticker
  let prices := (trends.lookup ticker).getD []
  let atr_value : ℚ := atrValueOf prices
  let mults := _calculate_sl_tp cfg instrument atr_value
  let sl_multiplier := mults.1
  let tp_multiplier := mults.2
  let stop_loss := XFloat.sub (.fin current_price) (XFloat.mul sl_multiplier (.fin atr_value))
  let take_profit := XFloat.add (.fin current_price) (XFloat.mul tp_multiplier (.fin atr_value))
  let forecast_prob := (cfg.forecast.lookup ticker).getD 0
  let sma := calculate_sma prices cfg.period
  let ema := calculate_ema prices cfg.period
  let rsi := calculate_rsi prices cfg.period
  let sec_balance := _get_security_balance securities instrument
  if XFloat.le (.fin price_change) sl_multiplier.neg && decide (sec_balance > 0) then
    messages ++ [.sellSL ticker stop_loss]
  else if XFloat.le tp_multiplier (.fin price_change) && decide (sec_balance > 0) then
    messages ++ [.sellTP ticker take_profit]
  else
    trendDecision cfg messages ticker current_price sma ema rsi forecast_prob

/-- One step of the regrouping loop of `_get_trends`: append `price` to the
series of `ticker`, creating the entry at the end when the ticker is new
(Python dict insertion order). -/
def addPrice (trends : List (String × List ℚ)) (ticker : String) (price : ℚ) :
    List (String × List ℚ) :=
  match trends with
  | [] => [(ticker, [price])]
  | (t, ps) :: rest =>
      if t == ticker then (t, ps ++ [price]) :: rest
      else (t, ps) :: addPrice rest ticker price

/-- The inner loop of `_get_trends` over one record: fold its `marketData`
items into the accumulated trends. -/
def addSnapshot (trends : List (String × List ℚ)) (record : Snapshot) :
    List (String × List ℚ) :=
  record.foldl (fun tr2 item => addPrice tr2 item.1 item.2) trends

/-- The regrouping loop of `_get_trends` (lines 96–101): fold the records in
store order, and within each record its `marketData` items, appending each
price to its ticker series. -/
def buildTrends (records : List Snapshot) : List (String × List ℚ) :=
  records.foldl addSnapshot []

/-- `TradingStrategy._get_trends` (lines 89–102): when the store returns no
records the source returns the sentinel list `["Error: No historical data
found"]` instead of a dict — modelled as the `error` branch carrying that
list; otherwise the ticker → price-series mapping built by `buildTrends`. -/
def _get_trends (history_records : List Snapshot) :
    Except (List String) (List (String × List ℚ)) :=
  if history_records.isEmpty then
    Except.error ["Error: No historical data found"]
  else
    Except.ok (buildTrends history_records)

/-- Line 175 of `make_predicate`:
`np.mean(prices) if prices else current_price` — the mean of the standing
buy-order prices, falling back to the current price when there are none.
(The spec calls this operation `average_buy_price`.) -/
def average_buy_price (prices : List ℚ) (current_price : ℚ) : ℚ :=
  if prices.isEmpty then current_price else npMean prices

/-- Line 178 of `make_predicate`:
`(current_price - buy_price) / buy_price * 100`.  Python raises
`ZeroDivisionError` when `buy_price == 0`; the model uses total rational
division (the claims only concern nonzero prices). -/
def price_change_pct (current_price buy_price : ℚ) : ℚ :=
  (current_price - buy_price) / buy_price * 100

/-- The buy orders of line 172: `order_type == "buy"` and matching uid. -/
def buyOrdersFor (orders : List DbOrder) (instrument : Instrument) : List DbOrder :=
  orders.filter (fun o => o.order_type == "buy" && o.instrument_uid == instrument.uid)

/-- One iteration of the `make_predicate` loop (lines 169–180) for a ticker
of the market snapshot.  The source indexes `instrument["uid"]` immediately
after `find_one` without a `None` check, so a missing instrument raises
`TypeError` and aborts the whole cycle; likewise, when `_get_trends`
returned its sentinel list, `trends.get(ticker, [])` inside `_get_predicate`
raises `AttributeError`. -/
def cycleStep (cfg : Config) (db : Db)
    (trends : Except (List String) (List (String × List ℚ)))
    (messages : List Message) (entry : String × ℚ) : Except String (List Message) :=
  let ticker := entry.1
  let current_price := entry.2
  match db.instruments.find? (fun i => i.ticker == ticker) with
  | none => Except.error "TypeError: NoneType is not subscriptable"
  | some instrument =>
    let prices := (buyOrdersFor db.orders instrument).map (fun o => o.price)
    let buy_price := average_buy_price prices current_price
    let price_change := price_change_pct current_price buy_price
    match trends with
    | .error _ => Except.error "AttributeError: list object has no attribute get"
    | .ok tr =>
        Except.ok (_get_predicate cfg messages instrument current_price price_change tr
          db.securities)

/-- The `for ticker, data in self.market_data.items()` loop of
`make_predicate`: run `cycleStep` on each entry in snapshot order, threading
the message list; the first exception aborts the loop (and no messages are
returned, as the exception propagates out of `make_predicate`). -/
def runCycle (cfg : Config) (db : Db)
    (trends : Except (List String) (List (String × List ℚ))) :
    List (String × ℚ) → List Message → Except String (List Message)
  | [], messages => Except.ok messages
  | entry :: rest, messages =>
      match cycleStep cfg db trends messages entry with
      | .error e => Except.error e
      | .ok messages2 => runCycle cfg db trends rest messages2

/-- `TradingStrategy.make_predicate` (lines 166–181): load the trends once,
then loop over the market snapshot in its own order. -/
def make_predicate (cfg : Config) (db : Db) : Except String (List Message) :=
  let trends := _get_trends db.history
  runCycle cfg db trends db.market_data []

/-- The action swap performed by reverse mode in the trend branch: BUY and
SELL are exchanged; every other message is untouched. -/
def swapTrend : Message → Message
  | .buy t => .sell t
  | .sell t => .buy t
  | m => m

/-- Specification of how one ticker series grows under `addPrice` and
`addSnapshot` (used to state their lookup lemmas): `none` stays `none` when
nothing is appended, otherwise the appended prices join the existing ones. -/
def combineSeries : Option (List ℚ) → List ℚ → Option (List ℚ)
  | o, [] => o
  | o, l => some (o.getD [] ++ l)

/-! ### Concrete fixtures used by the witness and counterexample theorems -/

/-- A share instrument for ticker AAA. -/
def instrAAA : Instrument := { ticker := "AAA", uid := "u1", instrument_type := "share" }

/-- Configuration for the C1 witness. -/
def c1cfg : Config := { sl := 10, tp := 5, forecast := [] }

/-- Holdings for the C1 witness: a positive balance for AAA. -/
def c1sec : List Holding := [{ instrument_uid := "u1", balance := 3 }]

/-- Configuration for the C2 scenario. -/
def c2cfg : Config := { sl := 5, tp := 5, forecast := [] }

/-- C2 scenario store: the market snapshot has tickers AAA and BBB, but the
instrument directory only has AAA. -/
def c2db : Db :=
  { market_data := [("AAA", 120), ("BBB", 50)]
    history := [[("AAA", 100)]]
    instruments := [instrAAA]
    orders := []
    securities := [] }

/-- The same store with BBB removed from the market snapshot. -/
def c2dbOnlyAAA : Db := { c2db with market_data := [("AAA", 120)] }

/-- Trends for the C5 witness: fourteen identical prices, whose ATR is 0. -/
def c5trends : List (String × List ℚ) :=
  [("AAA", [100, 100, 100, 100, 100, 100, 100, 100, 100, 100, 100, 100, 100, 100])]

/-- Configuration for the C5 witness. -/
def c5cfg : Config := { sl := 5, tp := 5, forecast := [] }

/-- Configuration for the C10 witness: lookback period 1, empty forecast. -/
def c10cfg : Config := { sl := 5, tp := 5, period := 1, forecast := [] }

/-- Trends for the C10 witness. -/
def c10trends : List (String × List ℚ) := [("AAA", [100])]

/-- Snapshot store for the C4 witness: two snapshots, AAA in both, BBB in
the first only. -/
def c4records : List Snapshot := [[("AAA", 1), ("BBB", 2)], [("AAA", 3)]]

/-! ## Claim theorems -/

/-- C3, counterexample.  The claim says `ATR` does not raise for series
shorter than its period, including the empty series; but
`calculate_atr([], 14)` executes `atr[13] = np.mean(tr[:14])` on an empty
array and raises `IndexError`. -/
theorem c3_counterexample : calculate_atr [] 14 = Except.error "IndexError" := rfl

/-- C3, amended: for every price series shorter than the period, `SMA`,
`EMA` and `RSI` return the explicit absent value rather than raising, while
`ATR` raises `IndexError` (which the engine catches, substituting
`atr_value = 1`). -/
theorem c3_short_series (prices : List ℚ) (period : ℕ)
    (hshort : prices.length < period) :
    calculate_sma prices period = none ∧
    calculate_ema prices period = none ∧
    calculate_rsi prices period = none ∧
    calculate_atr prices period = Except.error "IndexError" := by
  refine ⟨?_, ?_, ?_, ?_⟩
  · simp [calculate_sma, Nat.not_le.mpr hshort]
  · simp [calculate_ema, hshort]
  · simp [calculate_rsi, hshort]
  · have h : ¬ (period - 1 < prices.length) := by omega
    simp [calculate_atr, h]

/-- C3, witness for `c3_short_series` at the three-element series. -/
theorem c3_witness :
    calculate_sma [1, 2, 3] 14 = none ∧ calculate_ema [1, 2, 3] 14 = none ∧
    calculate_rsi [1, 2, 3] 14 = none ∧
    calculate_atr [1, 2, 3] 14 = Except.error "IndexError" :=
  c3_short_series [1, 2, 3] 14 (by decide)

/-- C8: with no standing buy orders for the instrument, the average buy
price falls back to the current price, and the price change percentage is
exactly `0`.  (`current_price ≠ 0` keeps the Python division
`(current_price - buy_price) / buy_price` well defined; the model's rational
division is total.) -/
theorem c8_flat_position (orders : List DbOrder) (instrument : Instrument)
    (current_price : ℚ) (hcp : current_price ≠ 0)
    (hflat : buyOrdersFor orders instrument = []) :
    average_buy_price ((buyOrdersFor orders instrument).map (fun o => o.price))
        current_price = current_price ∧
    price_change_pct current_price
      (average_buy_price ((buyOrdersFor orders instrument).map (fun o => o.price))
        current_price) = 0 := by
  rw [hflat]
  refine ⟨by simp [average_buy_price], ?_⟩
  simp [average_buy_price, price_change_pct]

/-- C8, witness: a flat position at current price 120. -/
theorem c8_witness :
    average_buy_price ((buyOrdersFor []
        { ticker := "AAA", uid := "u1", instrument_type := "share" }).map
          (fun o => o.price)) 120 = 120 ∧
    price_change_pct 120 (average_buy_price ((buyOrdersFor []
        { ticker := "AAA", uid := "u1", instrument_type := "share" }).map
          (fun o => o.price)) 120) = 0 :=
  c8_flat_position [] _ 120 (by norm_num) rfl

/-- C2, code bug.  With only AAA in the snapshot the cycle succeeds; adding
ticker BBB, which has no instrument in the directory, makes
`make_predicate` raise `TypeError` (from `instrument["uid"]` on `None`) and
abort the whole cycle: no per-ticker `InstrumentNotFound` marker exists and
the result for AAA is lost, contrary to the claim (and to the spec, which
itself flags the unbounded per-ticker exception propagation in §9). -/
theorem c2_missing_instrument_aborts :
    make_predicate c2cfg c2dbOnlyAAA = Except.ok [] ∧
    make_predicate c2cfg c2db = Except.error "TypeError: NoneType is not subscriptable" := by
  refine ⟨?_, ?_⟩
  · simp only [make_predicate, runCycle, cycleStep, c2cfg, c2db, c2dbOnlyAAA, instrAAA,
      _get_trends, buildTrends, addSnapshot, addPrice, buyOrdersFor, average_buy_price,
      price_change_pct, _get_predicate, atrValueOf, calculate_atr, trList, deltas,
      _calculate_sl_tp, _get_security_balance, calculate_sma, calculate_ema, trendDecision,
      XFloat.div, XFloat.le, XFloat.neg, List.foldl, List.lookup, List.find?,
      List.filter, List.isEmpty, List.length]
    norm_num
  · rfl

/-- C1: for a ticker with positive holding balance, the decision follows the
fixed priority order of lines 146–163: if `price_change <= -sl_multiplier`
the output is the stop-loss SELL with
`stop_price = current_price - sl_multiplier*atr_value`; otherwise, if
`price_change >= tp_multiplier`, the take-profit SELL with
`take_price = current_price + tp_multiplier*atr_value`; only when neither
exit fires is the trend branch evaluated. -/
theorem c1_exit_priority (cfg : Config) (messages : List Message)
    (instrument : Instrument) (current_price price_change : ℚ)
    (trends : List (String × List ℚ)) (securities : List Holding)
    (prices : List ℚ) (hp : prices = (trends.lookup instrument.ticker).getD [])
    (slm tpm : XFloat)
    (hm : _calculate_sl_tp cfg instrument (atrValueOf prices) = (slm, tpm))
    (hbal : _get_security_balance securities instrument > 0) :
    (XFloat.le (.fin price_change) slm.neg = true →
      _get_predicate cfg messages instrument current_price price_change trends securities =
        messages ++ [Message.sellSL instrument.ticker
          (XFloat.sub (.fin current_price) (XFloat.mul slm (.fin (atrValueOf prices))))]) ∧
    (XFloat.le (.fin price_change) slm.neg = false →
      XFloat.le tpm (.fin price_change) = true →
      _get_predicate cfg messages instrument current_price price_change trends securities =
        messages ++ [Message.sellTP instrument.ticker
          (XFloat.add (.fin current_price) (XFloat.mul tpm (.fin (atrValueOf prices))))]) ∧
    (XFloat.le (.fin price_change) slm.neg = false →
      XFloat.le tpm (.fin price_change) = false →
      _get_predicate cfg messages instrument current_price price_change trends securities =
        trendDecision cfg messages instrument.ticker current_price
          (calculate_sma prices cfg.period) (calculate_ema prices cfg.period)
          (calculate_rsi prices cfg.period)
          ((cfg.forecast.lookup instrument.ticker).getD 0)) := by
  subst hp
  refine ⟨?_, ?_, ?_⟩
  · intro h1
    simp only [_get_predicate, hm, decide_eq_true hbal, h1, Bool.true_and, Bool.and_true,
      if_true]
  · intro h1 h2
    simp only [_get_predicate, hm, decide_eq_true hbal, h1, h2, Bool.true_and, Bool.and_true,
      Bool.false_and, Bool.and_false, if_true, if_false, Bool.false_eq_true, ite_false,
      ite_true]
  · intro h1 h2
    simp only [_get_predicate, hm, decide_eq_true hbal, h1, h2, Bool.false_and, Bool.and_false,
      Bool.false_eq_true, ite_false]

/-- C1, witness: balance 3 > 0, `price_change = -12 <= -10 = -sl_multiplier`
(ATR falls back to 1 for the empty series), so the stop-loss SELL fires with
stop price `100 - 10*1 = 90`. -/
theorem c1_witness :
    _get_predicate c1cfg [] instrAAA 100 (-12) [] c1sec =
      [Message.sellSL "AAA" (XFloat.fin 90)] := by
  have h := (c1_exit_priority c1cfg [] instrAAA 100 (-12) [] c1sec [] rfl
      (XFloat.fin 10) (XFloat.fin 5)
      (by norm_num [_calculate_sl_tp, XFloat.div, atrValueOf, calculate_atr, trList,
        c1cfg, instrAAA])
      (by norm_num [_get_security_balance, List.find?, c1sec, instrAAA])).1
      (by simp only [XFloat.neg, XFloat.le, decide_eq_true_eq]; norm_num)
  rw [h]
  norm_num [atrValueOf, calculate_atr, trList, XFloat.sub, XFloat.mul, XFloat.add,
    XFloat.neg, instrAAA]

/-- C5: when the ATR value of the ticker evaluates to 0, both exit guards
compare against `inf`/`nan` (numpy division by zero does not raise) and are
false, so the evaluation falls through to the trend branch. -/
theorem c5_zero_atr_skips_exits (cfg : Config) (messages : List Message)
    (instrument : Instrument) (current_price price_change : ℚ)
    (trends : List (String × List ℚ)) (securities : List Holding)
    (hsl : 0 ≤ cfg.sl) (htp : 0 ≤ cfg.tp)
    (hatr : atrValueOf ((trends.lookup instrument.ticker).getD []) = 0) :
    _get_predicate cfg messages instrument current_price price_change trends securities =
      trendDecision cfg messages instrument.ticker current_price
        (calculate_sma ((trends.lookup instrument.ticker).getD []) cfg.period)
        (calculate_ema ((trends.lookup instrument.ticker).getD []) cfg.period)
        (calculate_rsi ((trends.lookup instrument.ticker).getD []) cfg.period)
        ((cfg.forecast.lookup instrument.ticker).getD 0) := by
  have hdiv1 : ∀ s : ℚ, 0 ≤ s →
      XFloat.le (.fin price_change) (XFloat.div (.fin s) (.fin 0)).neg = false := by
    intro s hs
    rcases eq_or_lt_of_le hs with h | h
    · simp [XFloat.div, ← h, XFloat.neg, XFloat.le]
    · simp [XFloat.div, h, XFloat.neg, XFloat.le]
  have hdiv2 : ∀ s : ℚ, 0 ≤ s →
      XFloat.le (XFloat.div (.fin s) (.fin 0)) (.fin price_change) = false := by
    intro s hs
    rcases eq_or_lt_of_le hs with h | h
    · simp [XFloat.div, ← h, XFloat.le]
    · simp [XFloat.div, h, XFloat.le]
  have hs' : 0 ≤ (if instrument.instrument_type == "share" then cfg.sl else cfg.sl / 2) := by
    split
    · exact hsl
    · linarith
  have ht' : 0 ≤ (if instrument.instrument_type == "share" then cfg.tp else cfg.tp / 2) := by
    split
    · exact htp
    · linarith
  simp only [_get_predicate, hatr, _calculate_sl_tp, hdiv1 _ hs', hdiv2 _ ht',
    Bool.false_and, Bool.false_eq_true, ite_false]

/-- C5, witness: fourteen identical prices give ATR exactly 0; with balance
absent and `price_change = -50`, the engine still reaches the trend branch
(which here emits nothing since SMA needs 20 prices). -/
theorem c5_witness :
    atrValueOf ((c5trends.lookup instrAAA.ticker).getD []) = 0 ∧
    _get_predicate c5cfg [] instrAAA 100 (-50) c5trends [] =
      trendDecision c5cfg [] instrAAA.ticker 100
        (calculate_sma ((c5trends.lookup instrAAA.ticker).getD []) c5cfg.period)
        (calculate_ema ((c5trends.lookup instrAAA.ticker).getD []) c5cfg.period)
        (calculate_rsi ((c5trends.lookup instrAAA.ticker).getD []) c5cfg.period)
        ((c5cfg.forecast.lookup instrAAA.ticker).getD 0) := by
  have h : atrValueOf ((c5trends.lookup instrAAA.ticker).getD []) = 0 := by
    norm_num [atrValueOf, calculate_atr, trList, deltas, npMean, wilder, c5trends, instrAAA,
      List.lookup, List.zip]
  exact ⟨h, c5_zero_atr_skips_exits c5cfg [] instrAAA 100 (-50) c5trends []
    (by norm_num [c5cfg]) (by norm_num [c5cfg]) h⟩

/-- C9, helper: reverse mode only swaps BUY and SELL in the trend branch. -/
theorem trendDecision_reverse (cfg : Config) (ticker : String) (current_price : ℚ)
    (sma ema rsi : Option ℚ) (forecast_prob : ℚ) :
    trendDecision { cfg with is_reverse := true } [] ticker current_price sma ema rsi
        forecast_prob =
      (trendDecision { cfg with is_reverse := false } [] ticker current_price sma ema rsi
        forecast_prob).map swapTrend := by
  rcases sma with _ | s <;> rcases ema with _ | e <;> simp only [trendDecision] <;>
    try rfl
  split_ifs <;> simp_all [swapTrend]

/-- C9: two evaluations of the same ticker that differ only in `is_reverse`
produce the same output up to `swapTrend`, which exchanges the trend-branch
BUY and SELL and fixes every other message — so the stop-loss SELL,
take-profit SELL, HOLD and skip outcomes are identical. -/
theorem c9_reverse_swaps_only_trend (cfg : Config) (instrument : Instrument)
    (current_price price_change : ℚ) (trends : List (String × List ℚ))
    (securities : List Holding) :
    _get_predicate { cfg with is_reverse := true } [] instrument current_price price_change
        trends securities =
      (_get_predicate { cfg with is_reverse := false } [] instrument current_price
        price_change trends securities).map swapTrend := by
  simp only [_get_predicate, _calculate_sl_tp]
  split_ifs <;>
    first
    | simp [swapTrend]
    | exact trendDecision_reverse cfg instrument.ticker current_price _ _ _ _

/-- C10: a ticker absent from the forecast map gets probability 0, so neither
trend rule (needing `>= 0.4` resp. `>= 0.6`) can fire; with SMA and EMA
present and no exit firing, the output is HOLD. -/
theorem c10_no_forecast_holds (cfg : Config) (messages : List Message)
    (instrument : Instrument) (current_price price_change : ℚ)
    (trends : List (String × List ℚ)) (securities : List Holding)
    (hf : cfg.forecast.lookup instrument.ticker = none)
    (s e : ℚ)
    (hs : calculate_sma ((trends.lookup instrument.ticker).getD []) cfg.period = some s)
    (he : calculate_ema ((trends.lookup instrument.ticker).getD []) cfg.period = some e)
    (hsl : (XFloat.le (.fin price_change)
        ((_calculate_sl_tp cfg instrument
          (atrValueOf ((trends.lookup instrument.ticker).getD []))).1).neg &&
        decide (_get_security_balance securities instrument > 0)) = false)
    (htp : (XFloat.le ((_calculate_sl_tp cfg instrument
          (atrValueOf ((trends.lookup instrument.ticker).getD []))).2) (.fin price_change) &&
        decide (_get_security_balance securities instrument > 0)) = false) :
    _get_predicate cfg messages instrument current_price price_change trends securities =
      messages ++ [Message.hold instrument.ticker] := by
  have h04 : decide ((0 : ℚ) ≥ 0.4) = false := by
    rw [decide_eq_false_iff_not]
    norm_num
  have h06 : decide ((0 : ℚ) ≥ 0.6) = false := by
    rw [decide_eq_false_iff_not]
    norm_num
  simp only [_get_predicate, hsl, htp, Bool.false_eq_true, ite_false, trendDecision,
    hs, he, hf, Option.getD_none, h04, h06, Bool.and_false, Bool.false_and]

/-- C10, witness: ticker AAA is absent from the (empty) forecast map, its SMA
and EMA are present with lookback period 1, no exit fires (no holdings), and
the result is HOLD. -/
theorem c10_witness :
    c10cfg.forecast.lookup instrAAA.ticker = none ∧
    _get_predicate c10cfg [] instrAAA 120 0 c10trends [] =
      [Message.hold instrAAA.ticker] := by
  refine ⟨rfl, ?_⟩
  have h := c10_no_forecast_holds c10cfg [] instrAAA 120 0 c10trends [] rfl 100 100
    (by norm_num [calculate_sma, lastSlice, npMean, c10cfg, c10trends, instrAAA, List.lookup])
    (by norm_num [calculate_ema, c10cfg, c10trends, instrAAA, List.lookup])
    (by simp [_get_security_balance])
    (by simp [_get_security_balance])
  simpa using h


theorem combineSeries_assoc (o : Option (List ℚ)) (l1 l2 : List ℚ) :
    combineSeries (combineSeries o l1) l2 = combineSeries o (l1 ++ l2) := by
  cases l1 <;> cases l2 <;> simp [combineSeries]

theorem lookup_addPrice (tr : List (String × List ℚ)) (s : String) (p : ℚ) (t : String) :
    (addPrice tr s p).lookup t =
      combineSeries (tr.lookup t) (if t == s then [p] else []) := by
  induction tr with
  | nil =>
    by_cases h : t = s
    · simp [addPrice, List.lookup, h, combineSeries]
    · simp [addPrice, List.lookup, h, beq_eq_false_iff_ne.mpr h, combineSeries]
  | cons kv rest ih =>
    obtain ⟨k, ps⟩ := kv
    by_cases hks : k = s
    · subst hks
      by_cases htk : t = k
      · subst htk
        simp [addPrice, List.lookup, combineSeries]
      · simp [addPrice, List.lookup, beq_eq_false_iff_ne.mpr htk, combineSeries]
    · by_cases htk : t = k
      · subst htk
        simp [addPrice, List.lookup, beq_eq_false_iff_ne.mpr hks,
          beq_eq_false_iff_ne.mpr (fun h => hks h), combineSeries]
      · simp [addPrice, List.lookup, beq_eq_false_iff_ne.mpr hks,
          beq_eq_false_iff_ne.mpr htk, ih]

theorem lookup_addSnapshot (tr : List (String × List ℚ)) (r : Snapshot) (t : String) :
    (addSnapshot tr r).lookup t =
      combineSeries (tr.lookup t) ((r.filter (fun item => item.1 == t)).map Prod.snd) := by
  induction r generalizing tr with
  | nil => simp [addSnapshot, combineSeries]
  | cons kv rest ih =>
    obtain ⟨k, v⟩ := kv
    have hstep : addSnapshot tr ((k, v) :: rest) = addSnapshot (addPrice tr k v) rest := rfl
    rw [hstep, ih, lookup_addPrice, combineSeries_assoc]
    by_cases h : k = t
    · subst h
      simp [List.filter]
    · simp [List.filter, beq_eq_false_iff_ne.mpr h, beq_eq_false_iff_ne.mpr (Ne.symm h)]

theorem lookup_foldl_addSnapshot (records : List Snapshot) (tr : List (String × List ℚ))
    (t : String) :
    ((records.foldl addSnapshot tr).lookup t) =
      combineSeries (tr.lookup t)
        ((records.map (fun r => (r.filter (fun item => item.1 == t)).map Prod.snd)).flatten) := by
  induction records generalizing tr with
  | nil => simp [combineSeries]
  | cons r rest ih =>
    simp only [List.foldl_cons, List.map_cons, List.flatten_cons]
    rw [ih, lookup_addSnapshot, combineSeries_assoc]

theorem filter_eq_lookup_toList (r : Snapshot) (t : String)
    (hnd : (r.map Prod.fst).Nodup) :
    (r.filter (fun item => item.1 == t)).map Prod.snd = (r.lookup t).toList := by
  induction r with
  | nil => simp [List.lookup]
  | cons kv rest ih =>
    obtain ⟨k, v⟩ := kv
    simp only [List.map_cons, List.nodup_cons] at hnd
    by_cases h : k = t
    · subst h
      have hrest : rest.filter (fun item => item.1 == k) = [] := by
        apply List.filter_eq_nil_iff.mpr
        intro item hmem
        intro hk
        have hik : item.1 = k := by simpa using hk
        apply hnd.1
        rw [← hik]
        exact List.mem_map_of_mem Prod.fst hmem
      simp [List.filter, List.lookup, hrest]
    · simp [List.filter, List.lookup, beq_eq_false_iff_ne.mpr h,
        beq_eq_false_iff_ne.mpr (Ne.symm h), ih hnd.2]

theorem join_toList_eq_filterMap (records : List Snapshot) (t : String) :
    ((records.map (fun r => (r.lookup t).toList)).flatten) =
      records.filterMap (fun r => r.lookup t) := by
  induction records with
  | nil => simp
  | cons r rest ih =>
    simp only [List.map_cons, List.flatten_cons, List.filterMap_cons]
    cases h : r.lookup t <;> simp [h, ih]

/-- C4: with zero snapshots `_get_trends` returns the sentinel error (a
distinguishable constructor carrying the literal one-element error list the
source returns); with at least one snapshot it returns the ticker →
price-series mapping, and each ticker series is exactly the prices of that
ticker in store order (`filterMap` over the records; each record is a Python
dict, hence the per-record key `Nodup` hypothesis). -/
theorem c4_trends_loader (records : List Snapshot)
    (hnd : ∀ r ∈ records, (r.map Prod.fst).Nodup) :
    (records.isEmpty = true →
      _get_trends records = Except.error ["Error: No historical data found"]) ∧
    (records.isEmpty = false →
      _get_trends records = Except.ok (buildTrends records) ∧
      ∀ ticker : String, (buildTrends records).lookup ticker =
        (if records.filterMap (fun r => r.lookup ticker) = [] then none
         else some (records.filterMap (fun r => r.lookup ticker)))) := by
  refine ⟨fun he => by simp [_get_trends, he], fun he => ⟨by simp [_get_trends, he], ?_⟩⟩
  intro ticker
  rw [buildTrends, lookup_foldl_addSnapshot]
  have h2 : records.map (fun r => (r.filter (fun item => item.1 == ticker)).map Prod.snd) =
      records.map (fun r => (r.lookup ticker).toList) :=
    List.map_congr_left fun r hr => filter_eq_lookup_toList r ticker (hnd r hr)
  rw [h2, join_toList_eq_filterMap]
  cases h : records.filterMap (fun r => r.lookup ticker) with
  | nil => simp [combineSeries, List.lookup]
  | cons a l => simp [combineSeries, List.lookup]

/-- C4, witness: the empty store errors; the two-snapshot store succeeds and
AAA maps to its prices in store order. -/
theorem c4_witness :
    _get_trends [] = Except.error ["Error: No historical data found"] ∧
    _get_trends c4records = Except.ok (buildTrends c4records) ∧
    (buildTrends c4records).lookup "AAA" =
      (if c4records.filterMap (fun r => r.lookup "AAA") = [] then none
       else some (c4records.filterMap (fun r => r.lookup "AAA"))) := by
  refine ⟨(c4_trends_loader [] (by simp)).1 rfl, ?_, ?_⟩
  · exact ((c4_trends_loader c4records (by decide)).2 rfl).1
  · exact ((c4_trends_loader c4records (by decide)).2 rfl).2 "AAA"

theorem npMean_le_of_forall_le (xs : List ℚ) (b : ℚ) (hne : xs ≠ [])
    (hall : ∀ x ∈ xs, x ≤ b) : npMean xs ≤ b := by
  have hlen : 0 < (xs.length : ℚ) := by
    exact_mod_cast List.length_pos.mpr hne
  rw [npMean, div_le_iff₀ hlen]
  calc xs.sum ≤ xs.length • b := List.sum_le_card_nsmul xs b hall
    _ = b * xs.length := by rw [nsmul_eq_mul]; ring

theorem le_getLast_of_sorted (l : List ℚ) (hs : l.Pairwise (· ≤ ·)) (x : ℚ) (hx : x ∈ l)
    (lastp : ℚ) (hl : l.getLast? = some lastp) : x ≤ lastp := by
  induction l with
  | nil => cases hx
  | cons a t ih =>
    cases t with
    | nil =>
      simp only [List.mem_singleton] at hx
      simp only [List.getLast?_singleton, Option.some.injEq] at hl
      exact le_of_eq (hx.trans hl)
    | cons b t2 =>
      rw [List.getLast?_cons_cons] at hl
      rcases List.mem_cons.mp hx with rfl | hx2
      · have hmem : lastp ∈ b :: t2 := by
          obtain ⟨h, heq⟩ := List.mem_getLast?_eq_getLast hl
          rw [heq]
          exact List.getLast_mem h
        exact (List.pairwise_cons.mp hs).1 lastp hmem
      · exact ih (List.pairwise_cons.mp hs).2 hx2 hl

theorem ema_foldl_le (k : ℚ) (hk : k ≤ 1) (rest : List ℚ) :
    ∀ (a e : ℚ), e ≤ a → List.Chain' (· < ·) (a :: rest) →
      ∃ lastp, (a :: rest).getLast? = some lastp ∧
        rest.foldl (fun e price => price * k + e * (1 - k)) e ≤ lastp := by
  induction rest with
  | nil =>
    intro a e he _
    exact ⟨a, rfl, by simpa using he⟩
  | cons b t ih =>
    intro a e he hch
    obtain ⟨hab, hch2⟩ := List.chain'_cons.mp hch
    have h1 : e ≤ b := le_trans he (le_of_lt hab)
    have hstep : b * k + e * (1 - k) ≤ b := by
      have h2 : e * (1 - k) ≤ b * (1 - k) :=
        mul_le_mul_of_nonneg_right h1 (by linarith)
      have h3 : b * k + b * (1 - k) = b := by ring
      linarith
    obtain ⟨lastp, hl, hle⟩ := ih b (b * k + e * (1 - k)) hstep hch2
    refine ⟨lastp, ?_, by simpa using hle⟩
    rw [List.getLast?_cons_cons]
    exact hl

/-- C6: over a strictly increasing series of length at least the (positive)
period, SMA and EMA are present and both bounded by the last price: the SMA
is a mean of values all bounded by the last price, and the EMA recurrence
with `k = 2/(period+1) ≤ 1` keeps each intermediate value below the price it
just absorbed. -/
theorem c6_sma_ema_le_last (prices : List ℚ) (period : ℕ)
    (hinc : List.Chain' (· < ·) prices) (hper : 1 ≤ period)
    (hlen : period ≤ prices.length) :
    ∃ s e lastp, calculate_sma prices period = some s ∧
      calculate_ema prices period = some e ∧
      prices.getLast? = some lastp ∧ s ≤ lastp ∧ e ≤ lastp := by
  obtain ⟨p0, rest, rfl⟩ : ∃ p0 rest, prices = p0 :: rest := by
    cases prices with
    | nil => simp at hlen; omega
    | cons a t => exact ⟨a, t, rfl⟩
  have hk : (2 : ℚ) / ((period : ℚ) + 1) ≤ 1 := by
    rw [div_le_one (by positivity)]
    have : (1 : ℚ) ≤ (period : ℚ) := by exact_mod_cast hper
    linarith
  obtain ⟨lastp, hl, hema⟩ := ema_foldl_le (2 / ((period : ℚ) + 1)) hk rest p0 p0 le_rfl hinc
  have hpair : (p0 :: rest).Pairwise (· ≤ ·) :=
    (List.chain'_iff_pairwise.mp hinc).imp le_of_lt
  have hsma_le : npMean (lastSlice (p0 :: rest) period) ≤ lastp := by
    apply npMean_le_of_forall_le
    · have hlen2 : (lastSlice (p0 :: rest) period).length = period := by
        rw [lastSlice, if_neg (by omega)]
        rw [List.length_drop]
        omega
      intro hnil
      rw [hnil] at hlen2
      simp at hlen2
      omega
    · intro x hx
      apply le_getLast_of_sorted _ hpair x _ lastp hl
      have hsub : lastSlice (p0 :: rest) period ⊆ p0 :: rest := by
        rw [lastSlice, if_neg (by omega)]
        exact List.drop_subset _ _
      exact hsub hx
  refine ⟨npMean (lastSlice (p0 :: rest) period),
    rest.foldl (fun e price => price * (2 / ((period : ℚ) + 1)) +
      e * (1 - 2 / ((period : ℚ) + 1))) p0, lastp, ?_, ?_, hl, hsma_le, hema⟩
  · rw [calculate_sma, if_pos hlen]
  · rw [calculate_ema, if_neg (not_lt.mpr hlen)]

/-- C6, witness: the strictly increasing series `[1, 2]` with period 1. -/
theorem c6_witness :
    ∃ s e lastp, calculate_sma [1, 2] 1 = some s ∧ calculate_ema [1, 2] 1 = some e ∧
      ([1, 2] : List ℚ).getLast? = some lastp ∧ s ≤ lastp ∧ e ≤ lastp :=
  c6_sma_ema_le_last [1, 2] 1 (by norm_num [List.chain'_cons, List.chain'_singleton])
    (by decide) (by decide)

theorem npMean_nonneg (xs : List ℚ) (h : ∀ x ∈ xs, 0 ≤ x) : 0 ≤ npMean xs := by
  rw [npMean]
  apply div_nonneg (List.sum_nonneg h)
  positivity

theorem gainsOf_nonneg (prices : List ℚ) : ∀ x ∈ gainsOf prices, 0 ≤ x := by
  intro x hx
  simp only [gainsOf, List.mem_filter, decide_eq_true_eq] at hx
  exact le_of_lt hx.2

theorem lossesOf_nonneg (prices : List ℚ) : ∀ x ∈ lossesOf prices, 0 ≤ x := by
  intro x hx
  simp only [lossesOf, List.mem_map, List.mem_filter, Bool.not_eq_true',
    decide_eq_false_iff_not, not_lt] at hx
  obtain ⟨d, ⟨_, hd⟩, rfl⟩ := hx
  linarith

/-- C7: for a series of length at least the period, RSI is present and lies
in `[0, 100]`; and whenever the loss sum is 0 the average loss is 0 and RSI
is exactly 100. -/
theorem c7_rsi_bounds (prices : List ℚ) (period : ℕ) (hlen : period ≤ prices.length) :
    ∃ r, calculate_rsi prices period = some r ∧ 0 ≤ r ∧ r ≤ 100 ∧
      ((lossesOf prices).sum = 0 → r = 100) := by
  have hnl : ¬ (prices.length < period) := not_lt.mpr hlen
  simp only [calculate_rsi, hnl, if_false]
  set g := if (gainsOf prices).isEmpty then (0 : ℚ) else npMean (gainsOf prices) with hg
  set l := if (lossesOf prices).isEmpty then (0 : ℚ) else npMean (lossesOf prices) with hl
  have hg0 : 0 ≤ g := by
    rw [hg]
    split
    · exact le_refl 0
    · exact npMean_nonneg _ (gainsOf_nonneg prices)
  have hl0 : 0 ≤ l := by
    rw [hl]
    split
    · exact le_refl 0
    · exact npMean_nonneg _ (lossesOf_nonneg prices)
  by_cases hzero : l = 0
  · refine ⟨100, by simp [hzero], by norm_num, le_refl 100, fun _ => rfl⟩
  · have hlpos : 0 < l := lt_of_le_of_ne hl0 (Ne.symm hzero)
    have h1 : 0 ≤ g / l := div_nonneg hg0 (le_of_lt hlpos)
    have h2 : (0 : ℚ) < 1 + g / l := by linarith
    have h3 : 100 / (1 + g / l) ≤ 100 := div_le_self (by norm_num) (by linarith)
    have h4 : 0 < 100 / (1 + g / l) := div_pos (by norm_num) h2
    refine ⟨100 - 100 / (1 + g / l), by simp [hzero], by linarith, by linarith, ?_⟩
    intro hsum
    exfalso
    apply hzero
    rw [hl]
    split
    · rfl
    · rw [npMean, hsum, zero_div]

/-- C7, witness: the series `[1, 2]` (one positive delta, no losses) with
period 2. -/
theorem c7_witness :
    ∃ r, calculate_rsi [1, 2] 2 = some r ∧ 0 ≤ r ∧ r ≤ 100 ∧
      ((lossesOf [1, 2]).sum = 0 → r = 100) :=
  c7_rsi_bounds [1, 2] 2 (by decide)

end TradingStrategy
